import Mathlib

/-!
Verification of the lila-docker setup command (`command/src/main.rs`) against
its natural-language specification.  The Rust source is shallowly embedded:
the catalog enums, the compiled `Config` record, the password/profile
derivations and the straight-line orchestration pipeline of `start()` are
translated into executable Lean definitions, and the spec's claims are
settled as theorems about them.
-/

namespace LilaDocker

/-- Catalog of compose profiles, main.rs lines 55-67 (`enum ComposeProfile`,
nine variants, serialized in kebab-case by the derived string conversion). -/
inductive ComposeProfile
  | StockfishPlay
  | StockfishAnalysis
  | ExternalEngine
  | Search
  | Gifs
  | Thumbnails
  | ApiDocs
  | Chessground
  | PgnViewer
deriving DecidableEq, Fintype, Repr

/-- The derived kebab-case string conversion for `ComposeProfile`
(main.rs line 56, the `serialize_all = "kebab-case"` attribute). -/
def ComposeProfile.toString : ComposeProfile → String
  | .StockfishPlay => "stockfish-play"
  | .StockfishAnalysis => "stockfish-analysis"
  | .ExternalEngine => "external-engine"
  | .Search => "search"
  | .Gifs => "gifs"
  | .Thumbnails => "thumbnails"
  | .ApiDocs => "api-docs"
  | .Chessground => "chessground"
  | .PgnViewer => "pgn-viewer"

/-- Catalog of repository identifiers, main.rs lines 69-88 (`enum Repository`,
fifteen variants, kebab-case with one explicit override for `BbpPairings`). -/
inductive Repository
  | Lila
  | LilaWs
  | LilaDbSeed
  | Lifat
  | LilaFishnet
  | LilaEngine
  | LilaSearch
  | LilaGif
  | Api
  | Chessground
  | PgnViewer
  | Scalachess
  | Dartchess
  | Berserk
  | BbpPairings
deriving DecidableEq, Fintype, Repr

/-- The derived string conversion for `Repository` (main.rs lines 69-88):
kebab-case of the variant name, except the explicit
`serialize = "cyanfish/bbpPairings"` override on `BbpPairings`. -/
def Repository.toString : Repository → String
  | .Lila => "lila"
  | .LilaWs => "lila-ws"
  | .LilaDbSeed => "lila-db-seed"
  | .Lifat => "lifat"
  | .LilaFishnet => "lila-fishnet"
  | .LilaEngine => "lila-engine"
  | .LilaSearch => "lila-search"
  | .LilaGif => "lila-gif"
  | .Api => "api"
  | .Chessground => "chessground"
  | .PgnViewer => "pgn-viewer"
  | .Scalachess => "scalachess"
  | .Dartchess => "dartchess"
  | .Berserk => "berserk"
  | .BbpPairings => "cyanfish/bbpPairings"

/-- The fixed clone list `LICHESS_REPOS`, main.rs lines 29-43. -/
def LICHESS_REPOS : List String :=
  ["lichess-org/lila",
   "lichess-org/lila-ws",
   "lichess-org/lila-db-seed",
   "lichess-org/lila-engine",
   "lichess-org/lila-fishnet",
   "lichess-org/lila-gif",
   "lichess-org/lila-search",
   "lichess-org/lifat",
   "lichess-org/scalachess",
   "lichess-org/api",
   "lichess-org/pgn-viewer",
   "lichess-org/chessground",
   "lichess-org/berserk"]

/-- `struct OptionalService`, main.rs lines 49-53. -/
structure OptionalService where
  compose_profile : Option ComposeProfile
  repositories : Option (List Repository)
deriving DecidableEq, Repr

/-- The fixed multiselect menu of `prompt_for_optional_services`,
main.rs lines 212-322 (thirteen items, in presentation order). -/
def optionalServiceItems : List OptionalService :=
  [⟨some .StockfishPlay, some [.LilaFishnet]⟩,
   ⟨some .StockfishAnalysis, none⟩,
   ⟨some .ExternalEngine, some [.LilaEngine]⟩,
   ⟨some .Search, some [.LilaSearch]⟩,
   ⟨some .Gifs, some [.LilaGif]⟩,
   ⟨some .Thumbnails, none⟩,
   ⟨some .ApiDocs, some [.Api]⟩,
   ⟨some .Chessground, some [.Chessground]⟩,
   ⟨some .PgnViewer, some [.PgnViewer]⟩,
   ⟨none, some [.Scalachess]⟩,
   ⟨none, some [.Dartchess]⟩,
   ⟨none, some [.Berserk]⟩,
   ⟨none, some [.BbpPairings]⟩]

/-- `struct Config`, main.rs lines 20-27.  Note: the record has no `repos`
field; the clone list is the hardcoded constant `LICHESS_REPOS`. -/
structure Config where
  repos_dir : String
  profiles : List String
  setup_database : Bool
  su_password : String
  password : String
deriving DecidableEq, Repr

/-- Modelled from the spec: the binding of the `profiles` variable from the
selected services is absent from the surviving source (main.rs uses
`profiles` at lines 143 and 183 without a visible definition); spec section
4.3 step 2 says: union all present `profile` values across the selection
(skipping `None`), map each to its canonical name, and deduplicate. -/
def profilesOf (selected : List OptionalService) : List ComposeProfile :=
  (selected.filterMap (fun s => s.compose_profile)).dedup

/-- The password prompts, main.rs lines 117-132: when `setup_database` is
true the two prompts return the user's text, defaulting to the sentinel
"password" on blank input (the prompt's default-input setting, modelled as
`Option.getD`); when `setup_database` is false the prompts are never shown
and both fields are the empty string. -/
def startPasswords (setup_database : Bool) (su_input pw_input : Option String) :
    String × String :=
  if setup_database then (su_input.getD "password", pw_input.getD "password")
  else ("", "")

/-- The `Config` value built in `start()`, main.rs lines 141-147, fed by the
password prompts (lines 117-132) and the spec-modelled `profiles` binding.
The construction is total: no validation is performed on any field. -/
def compileConfig (selected : List OptionalService) (setup_database : Bool)
    (su_input pw_input : Option String) (repos_dir : String) : Config :=
  let p := startPasswords setup_database su_input pw_input
  { repos_dir := repos_dir
    profiles := (profilesOf selected).map ComposeProfile.toString
    setup_database := setup_database
    su_password := p.1
    password := p.2 }

/-- The repos-dir prompt, main.rs lines 135-139: the prompt is marked
required, so the interactive layer accepts a value only when the raw input
is non-empty; `none` models the layer re-prompting on empty input. -/
def requiredInput (raw : String) : Option String :=
  if raw = "" then none else some raw

/-- The repository set the claims say is compiled into the configuration:
spec section 4.3 step 1 (union of the selected services' repositories,
mapped to canonical names, deduplicated).  Declared only to compare the
claims' wording against the code, which has no such field. -/
def specSelectedRepos (selected : List OptionalService) : List String :=
  (((selected.filterMap (fun s => s.repositories)).flatten).map
    Repository.toString).dedup

/-- The six canonical pipeline step names of spec section 4.5. -/
def specStepNames : List String :=
  ["clone repositories", "init submodules", "build images",
   "compile assets", "start services", "seed database"]

/-- The result of one `Command::status()` call (main.rs lines 175, 186,
200): `spawnFailed` is the `Err` arm (the process could not be started);
`exited b` is the `Ok` arm carrying whether the exit status was success. -/
inductive CmdResult
  | spawnFailed
  | exited (success : Bool)
deriving DecidableEq, Repr

/-- The verdict the code reports for a command step (main.rs lines 175-178,
186-189, 200-204): the `match` arms inspect only whether `status()` returned
`Ok` — i.e. whether the process was spawned — and discard the exit status
carried inside the `Ok`. -/
def stepReportedOk : CmdResult → Bool
  | .spawnFailed => false
  | .exited _ => true

/-- Whether the external command actually exited with a success status. -/
def exitedSuccessfully : CmdResult → Bool
  | .spawnFailed => false
  | .exited b => b

/-- Outcomes of the external collaborators during one run: per-repository
clone results (git2, keyed by the `LICHESS_REPOS` entry) and the three
`Command::status()` results. -/
structure Env where
  cloneResult : String → Bool
  submoduleResult : CmdResult
  buildResult : CmdResult
  uiResult : CmdResult

/-- One external process invocation: program name and argument list. -/
structure Invocation where
  program : String
  args : List String
deriving DecidableEq, Repr

/-- A pipeline step's reported outcome: step name and success verdict. -/
structure StepOutcome where
  name : String
  ok : Bool
deriving DecidableEq, Repr

/-- Pipeline run state, spec section 4.5. -/
inductive PipelineState
  | NotStarted
  | Running (i : Nat)
  | Completed
deriving DecidableEq, Repr

/-- The `git submodule update --init` invocation, main.rs lines 168-174. -/
def submoduleCmd (config : Config) : Invocation :=
  ⟨"git", ["-C", config.repos_dir ++ "/lichess-org/lila",
           "submodule", "update", "--init"]⟩

/-- The `docker compose ... build` invocation, main.rs lines 181-186: the
argument list is "compose", then "--profile" followed by the profile name
for each element of `profiles`, then "build". -/
def buildCmd (profiles : List ComposeProfile) : Invocation :=
  ⟨"docker",
   "compose" ::
     ((profiles.flatMap (fun p => ["--profile", p.toString])) ++ ["build"])⟩

/-- The fixed UI-build invocation, main.rs lines 192-200. -/
def uiCmd : Invocation :=
  ⟨"docker", ["compose", "run", "--rm", "ui", "bash", "-c", "/lila/ui/build"]⟩

/-- The clone URL built for one `LICHESS_REPOS` entry, main.rs line 155. -/
def cloneUrl (repo : String) : String :=
  "https://github.com/" ++ repo ++ ".git"

/-- The clone destination for one `LICHESS_REPOS` entry, main.rs line 161. -/
def cloneDest (repos_dir repo : String) : String :=
  repos_dir ++ "/" ++ repo

/-- The step names actually present in main.rs lines 154-204: clone loop,
submodule init, image build, asset compile.  There is no start-services and
no seed-database step in the source. -/
def pipelineStepNames : List String :=
  ["clone repositories", "init submodules", "build images", "compile assets"]

/-- Trace of one `start()` run: every clone call with its (url, destination)
pair, the spinner messages of the clone loop, the three external commands in
issue order, the per-step reported outcomes, and the terminal state. -/
structure RunTrace where
  cloneCalls : List (String × String)
  cloneMessages : List String
  commands : List Invocation
  steps : List StepOutcome
  finalState : PipelineState
deriving Repr

/-- The orchestration part of `start()`, main.rs lines 154-209, which is
straight-line code: the clone loop discards each clone's `Result` with
`.ok()` (line 163) and unconditionally reports "Cloned {repo}" (line 164);
the submodule, build and UI steps each run `status()` and log success or
failure by matching only on `Ok`/`Err`, then fall through to the next step;
the function always returns `Ok(())` (line 209). -/
def runPipeline (config : Config) (profiles : List ComposeProfile)
    (env : Env) : RunTrace :=
  { cloneCalls := LICHESS_REPOS.map
      (fun repo => (cloneUrl repo, cloneDest config.repos_dir repo))
    cloneMessages := LICHESS_REPOS.map
      (fun repo =>
        let _ := env.cloneResult repo
        "Cloned " ++ repo)
    commands := [submoduleCmd config, buildCmd profiles, uiCmd]
    steps := [⟨"clone repositories", true⟩,
              ⟨"init submodules", stepReportedOk env.submoduleResult⟩,
              ⟨"build images", stepReportedOk env.buildResult⟩,
              ⟨"compile assets", stepReportedOk env.uiResult⟩]
    finalState := .Completed }

/-- Counts the occurrences of a `--profile <name>` flag pair (for a given
name) in an argument list: every "--profile" token consumes the following
token as the profile name. -/
def countProfileFlags (name : String) : List String → Nat
  | [] => 0
  | a :: rest =>
    if a = "--profile" then
      match rest with
      | [] => 0
      | n :: rest2 => (if n = name then 1 else 0) + countProfileFlags name rest2
    else countProfileFlags name rest

/-- A concrete configuration used for counterexample evaluations. -/
def cfg0 : Config :=
  ⟨"/home/user/lila-docker", [], false, "", ""⟩

/-- A concrete configuration with database seeding requested. -/
def cfg1 : Config :=
  ⟨"/home/user/lila-docker", ["search"], true, "password", "password"⟩

/-- An environment in which every external call fails (clones fail, every
`Command::status()` returns `Err`). -/
def env0 : Env :=
  ⟨fun _ => false, .spawnFailed, .spawnFailed, .spawnFailed⟩

/-- An environment in which every process spawns but the image build exits
with a non-zero status. -/
def envNonzero : Env :=
  ⟨fun _ => true, .exited true, .exited false, .exited true⟩

/-- The list of all `ComposeProfile` variants, in declaration order
(the derived iteration order of main.rs line 55). -/
def ComposeProfile.all : List ComposeProfile :=
  [.StockfishPlay, .StockfishAnalysis, .ExternalEngine, .Search, .Gifs,
   .Thumbnails, .ApiDocs, .Chessground, .PgnViewer]

/-- The list of all `Repository` variants, in declaration order
(the derived iteration order of main.rs line 69). -/
def Repository.all : List Repository :=
  [.Lila, .LilaWs, .LilaDbSeed, .Lifat, .LilaFishnet, .LilaEngine,
   .LilaSearch, .LilaGif, .Api, .Chessground, .PgnViewer, .Scalachess,
   .Dartchess, .Berserk, .BbpPairings]

/-- Validity of a compiled configuration, spec section 3: non-empty
destination, deduplicated catalog profile names, and empty passwords
whenever `setup_database` is false. -/
def validConfig (c : Config) : Prop :=
  c.repos_dir ≠ "" ∧ c.profiles.Nodup ∧
  (∀ p ∈ c.profiles, p ∈ ComposeProfile.all.map ComposeProfile.toString) ∧
  (c.setup_database = false → c.su_password = "" ∧ c.password = "")

instance (c : Config) : Decidable (validConfig c) := by
  unfold validConfig
  infer_instance

/-- TOML basic-string escaping of one character, as emitted by the
serializer used at main.rs line 149: quote and backslash are backslash
escaped, newline, tab and carriage return use their letter escapes, and
every other character is emitted verbatim. -/
def escapeChar (c : Char) : List Char :=
  if c = '"' then ['\\', '"']
  else if c = '\\' then ['\\', '\\']
  else if c = '\n' then ['\\', 'n']
  else if c = '\t' then ['\\', 't']
  else if c = '\r' then ['\\', 'r']
  else [c]

/-- A quoted TOML string: opening quote, escaped characters, closing
quote. -/
def quoteChars (s : String) : List Char :=
  '"' :: ((s.data.flatMap escapeChar) ++ ['"'])

/-- The tail of a serialized string array after its first element:
either the closing bracket, or a comma-space separator, the next quoted
element and the rest. -/
def restChars : List String → List Char
  | [] => [']']
  | y :: ys => ',' :: ' ' :: (quoteChars y ++ restChars ys)

/-- A serialized TOML string array, as emitted for `profiles`:
`[]` when empty, otherwise bracketed quoted elements joined by ", ". -/
def listChars : List String → List Char
  | [] => ['[', ']']
  | x :: xs => '[' :: (quoteChars x ++ restChars xs)

/-- A serialized TOML boolean. -/
def boolChars (b : Bool) : List Char :=
  if b then ['t', 'r', 'u', 'e'] else ['f', 'a', 'l', 's', 'e']

/-- Modelled from the spec: the Configuration Store's serialized form
(spec section 4.4, a flat key-value text format).  The source delegates
serialization to an external TOML library (`toml::to_string`, main.rs line
149); for the `Config` struct of main.rs lines 20-27 that library emits
exactly one `key = value` line per field, in declaration order, with
strings quoted and escaped as in `escapeChar`. -/
def saveChars (c : Config) : List Char :=
  "repos_dir = ".data ++ (quoteChars c.repos_dir ++
  ("\nprofiles = ".data ++ (listChars c.profiles ++
  ("\nsetup_database = ".data ++ (boolChars c.setup_database ++
  ("\nsu_password = ".data ++ (quoteChars c.su_password ++
  ("\npassword = ".data ++ (quoteChars c.password ++ "\n".data)))))))))

/-- `save` of the Configuration Store: the file contents written at
main.rs lines 149-150. -/
def saveConfig (c : Config) : String :=
  String.mk (saveChars c)

/-- Consumes an expected literal prefix from the input, returning the
remaining input, or `none` on mismatch. -/
def expectChars : List Char → List Char → Option (List Char)
  | [], input => some input
  | _ :: _, [] => none
  | c :: cs, d :: ds => if c = d then expectChars cs ds else none

/-- Decodes one escaped character (the letter after a backslash). -/
def unescapeChar (e : Char) : Option Char :=
  if e = '"' then some '"'
  else if e = '\\' then some '\\'
  else if e = 'n' then some '\n'
  else if e = 't' then some '\t'
  else if e = 'r' then some '\r'
  else none

/-- Reads the body of a quoted string up to the closing quote, undoing
the escapes of `escapeChar`; returns the decoded characters and the
remaining input. -/
def parseStringBody : List Char → Option (List Char × List Char)
  | [] => none
  | c :: rest =>
    if c = '"' then some ([], rest)
    else if c = '\\' then
      match rest with
      | [] => none
      | e :: rest2 =>
        match unescapeChar e with
        | none => none
        | some u =>
          match parseStringBody rest2 with
          | none => none
          | some (s, r) => some (u :: s, r)
    else
      match parseStringBody rest with
      | none => none
      | some (s, r) => some (c :: s, r)

/-- Reads a quoted string: opening quote, body, closing quote. -/
def parseQuoted : List Char → Option (String × List Char)
  | [] => none
  | c :: rest =>
    if c = '"' then
      match parseStringBody rest with
      | none => none
      | some (s, r) => some (String.mk s, r)
    else none

/-- Reads the tail of a string array after its first element: either the
closing bracket or comma-space separated further elements.  The fuel
argument bounds the number of elements and only decreases. -/
def parseItemsTail : Nat → List Char → Option (List String × List Char)
  | _, [] => none
  | fuel, c :: rest =>
    if c = ']' then some ([], rest)
    else if c = ',' then
      match fuel with
      | 0 => none
      | f + 1 =>
        match rest with
        | [] => none
        | d :: rest2 =>
          if d = ' ' then
            match parseQuoted rest2 with
            | none => none
            | some (s, r) =>
              match parseItemsTail f r with
              | none => none
              | some (ss, r2) => some (s :: ss, r2)
          else none
    else none

/-- Reads a string array: `[]`, or a bracketed, comma-space separated
list of quoted strings. -/
def parseItemList (fuel : Nat) : List Char → Option (List String × List Char)
  | [] => none
  | c :: rest =>
    if c = '[' then
      match rest with
      | [] => none
      | d :: rest2 =>
        if d = ']' then some ([], rest2)
        else
          match parseQuoted (d :: rest2) with
          | none => none
          | some (s, r) =>
            match parseItemsTail fuel r with
            | none => none
            | some (ss, r2) => some (s :: ss, r2)
    else none

/-- Reads a serialized boolean. -/
def parseBoolChars (l : List Char) : Option (Bool × List Char) :=
  match expectChars "true".data l with
  | some r => some (true, r)
  | none =>
    match expectChars "false".data l with
    | some r => some (false, r)
    | none => none

/-- Modelled from the spec: `load` of the Configuration Store (spec
section 4.4).  Its invocation in the source is commented out
(`toml::from_str::<Config>`, main.rs lines 206-207); the parse accepts the
key-value text emitted by `saveConfig` and rebuilds the `Config`
field-for-field, failing with `none` on malformed content. -/
def loadConfig (s : String) : Option Config := do
  let r1 ← expectChars "repos_dir = ".data s.data
  let (rd, r2) ← parseQuoted r1
  let r3 ← expectChars "\nprofiles = ".data r2
  let (ps, r4) ← parseItemList r3.length r3
  let r5 ← expectChars "\nsetup_database = ".data r4
  let (sd, r6) ← parseBoolChars r5
  let r7 ← expectChars "\nsu_password = ".data r6
  let (su, r8) ← parseQuoted r7
  let r9 ← expectChars "\npassword = ".data r8
  let (pw, r10) ← parseQuoted r9
  let r11 ← expectChars "\n".data r10
  match r11 with
  | [] => some ⟨rd, ps, sd, su, pw⟩
  | _ => none

theorem expectChars_append (pre rest : List Char) :
    expectChars pre (pre ++ rest) = some rest := by
  induction pre with
  | nil => rfl
  | cons c cs ih => simp [expectChars, ih]

theorem expectChars_self (pre : List Char) : expectChars pre pre = some [] := by
  have h := expectChars_append pre []
  simpa using h

theorem parseStringBody_escaped (e u : Char) (s rest2 tail : List Char)
    (h : unescapeChar e = some u) (h2 : parseStringBody tail = some (s, rest2)) :
    parseStringBody ('\\' :: e :: tail) = some (u :: s, rest2) := by
  rw [parseStringBody.eq_def]
  simp [h, h2]

theorem parseStringBody_raw (c : Char) (s rest2 tail : List Char)
    (h1 : ¬c = '"') (h2 : ¬c = '\\') (h3 : parseStringBody tail = some (s, rest2)) :
    parseStringBody (c :: tail) = some (c :: s, rest2) := by
  rw [parseStringBody.eq_def]
  simp [h1, h2, h3]

theorem parseStringBody_escape (s rest : List Char) :
    parseStringBody ((s.flatMap escapeChar) ++ ('"' :: rest)) = some (s, rest) := by
  induction s with
  | nil => simp [parseStringBody.eq_def]
  | cons c cs ih =>
    rw [List.flatMap_cons, List.append_assoc]
    by_cases h1 : c = '"'
    · subst h1
      exact parseStringBody_escaped _ _ _ _ _ rfl ih
    · by_cases h2 : c = '\\'
      · subst h2
        exact parseStringBody_escaped _ _ _ _ _ rfl ih
      · by_cases h3 : c = '\n'
        · subst h3
          exact parseStringBody_escaped _ _ _ _ _ rfl ih
        · by_cases h4 : c = '\t'
          · subst h4
            exact parseStringBody_escaped _ _ _ _ _ rfl ih
          · by_cases h5 : c = '\r'
            · subst h5
              exact parseStringBody_escaped _ _ _ _ _ rfl ih
            · rw [show escapeChar c = [c] by
                simp [escapeChar, h1, h2, h3, h4, h5]]
              exact parseStringBody_raw c _ _ _ h1 h2 ih

theorem parseQuoted_quoteChars (s : String) (rest : List Char) :
    parseQuoted (quoteChars s ++ rest) = some (s, rest) := by
  have hshape : quoteChars s ++ rest =
      '"' :: ((s.data.flatMap escapeChar) ++ ('"' :: rest)) := by
    simp [quoteChars]
  rw [hshape, parseQuoted.eq_def]
  simp [parseStringBody_escape]

theorem parseItemsTail_restChars (xs : List String) :
    ∀ (fuel : Nat) (rest : List Char), xs.length ≤ fuel →
      parseItemsTail fuel (restChars xs ++ rest) = some (xs, rest) := by
  induction xs with
  | nil =>
    intro fuel rest _
    simp [restChars, parseItemsTail.eq_def]
  | cons y ys ih =>
    intro fuel rest h
    match fuel with
    | 0 => simp at h
    | f + 1 =>
      have hy : ys.length ≤ f := by
        simp only [List.length_cons] at h
        omega
      have hshape : restChars (y :: ys) ++ rest =
          ',' :: ' ' :: (quoteChars y ++ (restChars ys ++ rest)) := by
        simp [restChars, List.append_assoc]
      rw [hshape, parseItemsTail.eq_def]
      simp [parseQuoted_quoteChars, ih f rest hy]

theorem restChars_length (xs : List String) :
    xs.length ≤ (restChars xs).length := by
  induction xs with
  | nil => simp [restChars]
  | cons y ys ih =>
    simp only [restChars, List.length_cons, List.length_append]
    omega

theorem listChars_length (xs : List String) :
    xs.length ≤ (listChars xs).length := by
  cases xs with
  | nil => simp [listChars]
  | cons x xs =>
    have h := restChars_length xs
    simp only [listChars, List.length_cons, List.length_append]
    omega

theorem parseItemList_listChars (xs : List String) (rest : List Char)
    (fuel : Nat) (h : xs.length ≤ fuel + 1) :
    parseItemList fuel (listChars xs ++ rest) = some (xs, rest) := by
  cases xs with
  | nil => simp [listChars, parseItemList.eq_def]
  | cons x xs =>
    have hx : xs.length ≤ fuel := by
      simp only [List.length_cons] at h
      omega
    have hshape : listChars (x :: xs) ++ rest =
        '[' :: '"' :: (((x.data.flatMap escapeChar) ++ ['"']) ++
          (restChars xs ++ rest)) := by
      simp [listChars, quoteChars, List.append_assoc]
    have hq : parseQuoted ('"' :: ((x.data.flatMap escapeChar) ++
        ('"' :: (restChars xs ++ rest)))) = some (x, restChars xs ++ rest) := by
      have h2 := parseQuoted_quoteChars x (restChars xs ++ rest)
      simpa [quoteChars] using h2
    rw [hshape, parseItemList.eq_def]
    simp [hq, parseItemsTail_restChars xs fuel rest hx]

theorem parseBoolChars_boolChars (b : Bool) (rest : List Char) :
    parseBoolChars (boolChars b ++ rest) = some (b, rest) := by
  cases b
  · have h1 : expectChars "true".data (boolChars false ++ rest) = none := rfl
    have h2 : expectChars "false".data (boolChars false ++ rest) = some rest :=
      expectChars_append "false".data rest
    simp only [parseBoolChars, h1, h2]
  · have h1 : expectChars "true".data (boolChars true ++ rest) = some rest :=
      expectChars_append "true".data rest
    simp only [parseBoolChars, h1]

theorem loadConfig_saveConfig (c : Config) :
    loadConfig (saveConfig c) = some c := by
  have h0 : (saveConfig c).data = saveChars c := rfl
  have hlist : ∀ (ps : List String) (tail : List Char),
      parseItemList (listChars ps ++ tail).length (listChars ps ++ tail) =
        some (ps, tail) := by
    intro ps tail
    refine parseItemList_listChars ps tail _ ?_
    have h1 := listChars_length ps
    have h2 : (listChars ps).length ≤ (listChars ps ++ tail).length := by
      rw [List.length_append]; omega
    omega
  simp only [loadConfig, h0, saveChars, expectChars_append, Option.bind_eq_bind,
    Option.some_bind, parseQuoted_quoteChars, hlist, parseBoolChars_boolChars,
    expectChars_self]

theorem composeProfile_toString_inj :
    ∀ a b : ComposeProfile,
      ComposeProfile.toString a = ComposeProfile.toString b → a = b := by
  decide

theorem countProfileFlags_step (name a : String) (l : List String)
    (h : ¬a = "--profile") :
    countProfileFlags name (a :: l) = countProfileFlags name l := by
  rw [countProfileFlags.eq_def]
  simp [h]

theorem countProfileFlags_flag (name n : String) (l : List String) :
    countProfileFlags name ("--profile" :: n :: l) =
      (if n = name then 1 else 0) + countProfileFlags name l := by
  rw [countProfileFlags.eq_def]
  simp

theorem countProfileFlags_profile_args (ps : List ComposeProfile) (name : String)
    (hnd : (ps.map ComposeProfile.toString).Nodup) :
    countProfileFlags name
        ((ps.flatMap (fun p => ["--profile", p.toString])) ++ ["build"]) =
      (if name ∈ ps.map ComposeProfile.toString then 1 else 0) := by
  induction ps with
  | nil => simp [countProfileFlags.eq_def]
  | cons p ps ih =>
    rw [List.map_cons, List.nodup_cons] at hnd
    obtain ⟨hp, hnd2⟩ := hnd
    have hshape :
        ((p :: ps).flatMap (fun q => ["--profile", q.toString])) ++ ["build"] =
          "--profile" :: p.toString ::
            ((ps.flatMap (fun q => ["--profile", q.toString])) ++ ["build"]) := by
      simp
    rw [hshape, countProfileFlags_flag, ih hnd2, List.map_cons]
    rcases eq_or_ne p.toString name with hpn | hpn
    · subst hpn
      simp [hp]
    · simp [hpn, Ne.symm hpn]

/-- Claim C1 is false on the code, counterexample: with no optional services
selected, the repository set the claim derives from the selection is empty,
yet a run still performs thirteen clone calls — the clone loop iterates the
hardcoded `LICHESS_REPOS` constant, and the compiled `Config` record has no
`repos` field at all. -/
theorem clone_step_ignores_selection :
    specSelectedRepos [] = [] ∧
    (runPipeline (compileConfig [] false none none "/home/user/lila-docker")
        [] env0).cloneCalls.length = 13 := by
  decide

/-- Claim C1 (amended): pipeline step 1 performs exactly one clone call per
entry of the hardcoded `LICHESS_REPOS` list — independent of the selected
services, profiles and environment — cloning each repository from its GitHub
URL into `repos_dir/<owner/name>`. -/
theorem clone_step_clones_lichess_repos (config : Config)
    (profiles : List ComposeProfile) (env : Env) :
    (runPipeline config profiles env).cloneCalls =
      LICHESS_REPOS.map (fun repo =>
        (cloneUrl repo, cloneDest config.repos_dir repo)) := rfl

/-- Claim C2: saving a valid configuration with the configuration store and
loading it back reproduces it field for field, including the empty-profiles
and empty-password cases (the `Config` record of the code has no `repos`
field, so the empty-`repos` case is subsumed by empty `profiles`). -/
theorem config_store_roundtrip (c : Config) (_h : validConfig c) :
    loadConfig (saveConfig c) = some c :=
  loadConfig_saveConfig c

/-- Witness for the round-trip law at the all-empty configuration
(no profiles, database setup declined, both passwords empty). -/
theorem config_store_roundtrip_witness :
    validConfig cfg0 ∧ loadConfig (saveConfig cfg0) = some cfg0 :=
  ⟨by decide, config_store_roundtrip cfg0 (by decide)⟩

/-- Claim C3 is false on the code, counterexample: even with database seeding
requested, a run attempts only four steps — the source has no start-services
step and no seed-database step — so the attempted step list is not the six
canonical steps. -/
theorem pipeline_not_six_steps :
    cfg1.setup_database = true ∧
    (runPipeline cfg1 [ComposeProfile.Search] env0).steps.map
        StepOutcome.name ≠ specStepNames := by
  decide

/-- Claim C3 (amended): for every configuration, profile selection and
environment — in particular whatever each external step's outcome is — the
pipeline attempts exactly the four steps present in the source, in the fixed
order clone, submodule-init, image-build, asset-compile, and always reaches
the `Completed` state; no step failure prevents a later step. -/
theorem pipeline_four_steps_completed (config : Config)
    (profiles : List ComposeProfile) (env : Env) :
    (runPipeline config profiles env).steps.map StepOutcome.name =
        pipelineStepNames ∧
    (runPipeline config profiles env).finalState = PipelineState.Completed :=
  ⟨rfl, rfl⟩

/-- Claim C4: whenever `setup_database` is false the compiled configuration
has both password fields empty, regardless of the values the prompts would
supply; and when `setup_database` is true and the user supplies no value,
both password fields default to the sentinel "password". -/
theorem password_invariant (selected : List OptionalService)
    (su_input pw_input : Option String) (repos_dir : String) :
    ((compileConfig selected false su_input pw_input repos_dir).su_password
        = "" ∧
      (compileConfig selected false su_input pw_input repos_dir).password
        = "") ∧
    ((compileConfig selected true none none repos_dir).su_password
        = "password" ∧
      (compileConfig selected true none none repos_dir).password
        = "password") :=
  ⟨⟨rfl, rfl⟩, ⟨rfl, rfl⟩⟩

/-- Claim C5 is false on the code, counterexample: in a run where the clone
of the primary repository lichess-org/lila failed, the submodule-init step is
still begun — its `git submodule update --init` command is issued and the
step appears in the attempted step list. -/
theorem submodule_runs_after_failed_clone :
    env0.cloneResult "lichess-org/lila" = false ∧
    submoduleCmd cfg0 ∈ (runPipeline cfg0 [] env0).commands ∧
    (runPipeline cfg0 [] env0).steps.map StepOutcome.name =
      pipelineStepNames := by
  decide

/-- Claim C5 (amended): the submodule-init step runs unconditionally after
the clone loop — its command is issued in every run, whether or not the
clone of the primary repository succeeded. -/
theorem submodule_step_unconditional (config : Config)
    (profiles : List ComposeProfile) (env : Env) :
    submoduleCmd config ∈ (runPipeline config profiles env).commands := by
  simp [runPipeline]

/-- Claim C6, evaluated at the failing input: the code's verdict for a
container-toolchain step reports success whenever `status()` returned `Ok` —
that is, whenever the process was spawned — and discards the exit status, so
a build that runs and exits unsuccessfully is still reported successful,
contradicting the claimed exit-status mapping. -/
theorem build_verdict_ignores_exit_status :
    exitedSuccessfully envNonzero.buildResult = false ∧
    stepReportedOk envNonzero.buildResult = true ∧
    (runPipeline cfg0 [] envNonzero).steps.map StepOutcome.ok =
      [true, true, true, true] := by
  decide

/-- Claim C7: the image-build command carries exactly one `--profile <name>`
flag per canonical profile name compiled from the selected services; with an
empty selection it carries zero `--profile` flags and is still issued in
every run; and a selection compiling to the single profile `search` yields
exactly one `--profile search` flag. -/
theorem build_profile_flags (selected : List OptionalService) (name : String) :
    countProfileFlags name (buildCmd (profilesOf selected)).args =
      (if name ∈ (profilesOf selected).map ComposeProfile.toString
        then 1 else 0) ∧
    (buildCmd []).args = ["compose", "build"] ∧
    countProfileFlags "search" (buildCmd [ComposeProfile.Search]).args = 1 ∧
    ∀ (config : Config) (env : Env),
      buildCmd (profilesOf selected) ∈
        (runPipeline config (profilesOf selected) env).commands := by
  refine ⟨?_, by decide, by decide, ?_⟩
  · have hnd : ((profilesOf selected).map ComposeProfile.toString).Nodup :=
      List.Nodup.map (fun a b h => composeProfile_toString_inj a b h)
        (List.nodup_dedup _)
    have hargs : (buildCmd (profilesOf selected)).args =
        "compose" :: (((profilesOf selected).flatMap
          (fun p => ["--profile", p.toString])) ++ ["build"]) := rfl
    rw [hargs, countProfileFlags_step name "compose" _ (by decide),
      countProfileFlags_profile_args _ _ hnd]
  · intro config env
    simp [runPipeline]

/-- Claim C8 is false on the code, counterexample: the configuration
construction performs no validation and there is no `ConfigurationError` in
the source, so compiling with the empty string as `repos_dir` still produces
a `Config` — one whose `repos_dir` field is empty. -/
theorem compile_accepts_empty_dir :
    compileConfig [] false none none "" =
      { repos_dir := "", profiles := [], setup_database := false,
        su_password := "", password := "" } := by
  decide

/-- Claim C8 (amended): an empty `repos_dir` is prevented by the interactive
layer, not the compiler: the repos-dir prompt is marked required, so any
accepted raw input is non-empty, and a configuration compiled from an
accepted input has a non-empty `repos_dir`. -/
theorem accepted_repos_dir_nonempty (raw dir : String)
    (h : requiredInput raw = some dir) (selected : List OptionalService)
    (sd : Bool) (su pw : Option String) :
    (compileConfig selected sd su pw dir).repos_dir ≠ "" := by
  by_cases hr : raw = ""
  · rw [requiredInput, if_pos hr] at h
    exact absurd h (by simp)
  · rw [requiredInput, if_neg hr] at h
    have hd : dir = raw := by
      injection h with h2
      exact h2.symm
    subst hd
    simpa [compileConfig] using hr

/-- Witness for the amended claim C8 at a concrete accepted input. -/
theorem accepted_repos_dir_nonempty_witness :
    requiredInput "/home/user/lila-docker" = some "/home/user/lila-docker" ∧
    (compileConfig [] false none none "/home/user/lila-docker").repos_dir
      ≠ "" :=
  ⟨by decide,
   accepted_repos_dir_nonempty "/home/user/lila-docker"
     "/home/user/lila-docker" (by decide) [] false none none⟩

/-- Claim C9: the catalog's canonical-name mappings are total, injective and
non-empty: every `Repository` and every `ComposeProfile` variant is listed
in its enumeration, the canonical names over each full enumeration are
pairwise distinct (injectivity), and every canonical name is non-empty.
Totality and functionality hold by construction: `Repository.toString` and
`ComposeProfile.toString` are total functions. -/
theorem catalog_canonical_names :
    (∀ r : Repository, r ∈ Repository.all) ∧
    (∀ p : ComposeProfile, p ∈ ComposeProfile.all) ∧
    (Repository.all.map Repository.toString).Nodup ∧
    (ComposeProfile.all.map ComposeProfile.toString).Nodup ∧
    (∀ r : Repository, 0 < (Repository.toString r).length) ∧
    (∀ p : ComposeProfile, 0 < (ComposeProfile.toString p).length) := by
  decide

/-- Claim C10: the clone loop discards every clone outcome and reports each
repository as cloned unconditionally: in every environment the emitted
spinner messages are exactly "Cloned <repo>" for each hardcoded repository,
the clone step's reported verdict is success, and the pipeline continues to
completion. -/
theorem clone_failures_invisible (config : Config)
    (profiles : List ComposeProfile) (env : Env) :
    (runPipeline config profiles env).cloneMessages =
      LICHESS_REPOS.map (fun repo => "Cloned " ++ repo) ∧
    (runPipeline config profiles env).steps.head? =
      some ⟨"clone repositories", true⟩ ∧
    (runPipeline config profiles env).finalState = PipelineState.Completed :=
  ⟨rfl, rfl, rfl⟩

end LilaDocker
